import Mathlib

/-!
# BioDockPro pipeline — verification of the orchestration core

Shallow embedding of the BioDockPro docking pipeline scripts
(`scripts/docking.py`, `scripts/prepare_inputs.py`, `scripts/run_docking.py`,
`scripts/extract_results.py`) and proofs about the embedded definitions.

Modelling conventions:
* Python floats are modelled as rationals (`ℚ`); the scripts only use
  arithmetic (`min`, `max`, `+`, `-`, `/ 2.0`) that is exact on the values
  involved, so no rounding behaviour is lost for the properties proved here.
* File-system state, external-tool exit codes and captured tool output are
  environment parameters; executing a stage produces a list of `Event`s
  (tool invocations, artifact writes, log lines) plus the stage's result,
  mirroring the side effects of the Python code in source order.
* A text line is modelled by the exact observations the Python code makes of
  it (prefix tests, fixed-offset float fields, whitespace tokens), since the
  scripts never inspect anything else.
-/

/-- Observable side effects of running a stage: an external tool invocation
(successful `subprocess` spawn), an artifact file written, or a console/log
line.  Only the message prefixes that the scripts actually emit are kept. -/
inductive Event where
  | invoke (tool : String) (target : String)
  | write (file : String)
  | log (msg : String)
  deriving DecidableEq

namespace Docking

/-! ## `scripts/docking.py` — `compute_box_from_receptor` (BoundingBoxCalculator)

The Python code scans the receptor file line by line; for a line starting
with `"ATOM"` or `"HETATM"` it attempts `float(line[30:38])`,
`float(line[38:46])`, `float(line[46:54])` and appends `(x, y, z)` on
success, skipping the line on any parse failure. -/

/-- One line of a receptor PDBQT file, reduced to what
`compute_box_from_receptor` observes: whether the line starts with `ATOM` or
`HETATM`, and the outcomes of `float()` on the three fixed-offset coordinate
fields (`none` models a `float()` that raises). -/
structure CoordLine where
  isAtomRecord : Bool
  fx : Option ℚ
  fy : Option ℚ
  fz : Option ℚ

/-- The per-line parse of `compute_box_from_receptor`: a coordinate is
collected iff the line is an ATOM/HETATM record and all three fields parse;
any failure skips just this line (the `except: pass`). -/
def parseCoordLine (ln : CoordLine) : Option (ℚ × ℚ × ℚ) :=
  if ln.isAtomRecord then
    match ln.fx, ln.fy, ln.fz with
    | some x, some y, some z => some (x, y, z)
    | _, _, _ => none
  else none

/-- All successfully parsed coordinates of a receptor file, in order. -/
def parsedCoords (lines : List CoordLine) : List (ℚ × ℚ × ℚ) :=
  lines.filterMap parseCoordLine

/-- A docking search box: center and per-axis extent, as returned by
`compute_box_from_receptor` (a 6-tuple in Python). -/
structure Box where
  cx : ℚ
  cy : ℚ
  cz : ℚ
  sx : ℚ
  sy : ℚ
  sz : ℚ
  deriving DecidableEq

/-- `DEFAULT_CENTER + DEFAULT_SIZE` of `docking.py`. -/
def defaultBox : Box := ⟨0, 0, 0, 24, 24, 24⟩

/-- Python's `min` over a nonempty list, seeded with its first element. -/
def pyMin (x : ℚ) (xs : List ℚ) : ℚ := xs.foldl min x

/-- Python's `max` over a nonempty list, seeded with its first element. -/
def pyMax (x : ℚ) (xs : List ℚ) : ℚ := xs.foldl max x

/-- Core of `compute_box_from_receptor` after coordinate collection.  The
second component records whether the `[WARN] No receptor coords parsed;
using DEFAULT box.` warning was printed. -/
def compute_box_core (coords : List (ℚ × ℚ × ℚ)) (margin min_size max_size : ℚ) :
    Box × Bool :=
  match coords with
  | [] => (defaultBox, true)
  | c :: cs =>
    let min_x := pyMin c.1 (cs.map (·.1))
    let max_x := pyMax c.1 (cs.map (·.1))
    let min_y := pyMin c.2.1 (cs.map (·.2.1))
    let max_y := pyMax c.2.1 (cs.map (·.2.1))
    let min_z := pyMin c.2.2 (cs.map (·.2.2))
    let max_z := pyMax c.2.2 (cs.map (·.2.2))
    (⟨(min_x + max_x) / 2, (min_y + max_y) / 2, (min_z + max_z) / 2,
      max min_size (min ((max_x - min_x) + margin) max_size),
      max min_size (min ((max_y - min_y) + margin) max_size),
      max min_size (min ((max_z - min_z) + margin) max_size)⟩, false)

/-- `compute_box_from_receptor(receptor_pdbqt_path, margin, min_size,
max_size)`: collect coordinates, then either the default box (with a
warning) or the min/max-derived clamped box. -/
def compute_box_from_receptor (lines : List CoordLine)
    (margin min_size max_size : ℚ) : Box × Bool :=
  compute_box_core (parsedCoords lines) margin min_size max_size

/-- The call with the default arguments `margin=8.0, min_size=20.0,
max_size=28.0`, as used by `run_docking`. -/
def compute_box_default (lines : List CoordLine) : Box × Bool :=
  compute_box_from_receptor lines 8 20 28

/-- `m` is the minimum of the list `xs` (member and lower bound). -/
def IsMinOf (m : ℚ) (xs : List ℚ) : Prop := m ∈ xs ∧ ∀ y ∈ xs, m ≤ y

/-- `m` is the maximum of the list `xs` (member and upper bound). -/
def IsMaxOf (m : ℚ) (xs : List ℚ) : Prop := m ∈ xs ∧ ∀ y ∈ xs, y ≤ m

theorem pyMin_isMinOf (x : ℚ) (xs : List ℚ) : IsMinOf (pyMin x xs) (x :: xs) := by
  induction xs generalizing x with
  | nil => exact ⟨List.mem_singleton.mpr rfl, by simp [pyMin]⟩
  | cons y ys ih =>
    have h := ih (min x y)
    have hm : pyMin x (y :: ys) = pyMin (min x y) ys := rfl
    constructor
    · rw [hm]
      rcases List.mem_cons.mp h.1 with h1 | h1
      · rw [List.mem_cons]
        rcases le_total x y with hxy | hxy
        · left
          rw [h1, min_eq_left hxy]
        · right
          rw [List.mem_cons]
          left
          rw [h1, min_eq_right hxy]
      · exact List.mem_cons_of_mem _ (List.mem_cons_of_mem _ h1)
    · intro z hz
      rw [hm]
      have hmin : pyMin (min x y) ys ≤ min x y := h.2 _ (List.mem_cons_self _ _)
      rcases List.mem_cons.mp hz with hz1 | hz1
      · subst hz1
        exact le_trans hmin (min_le_left _ _)
      · rcases List.mem_cons.mp hz1 with hz2 | hz2
        · subst hz2
          exact le_trans hmin (min_le_right _ _)
        · exact h.2 z (List.mem_cons_of_mem _ hz2)

theorem pyMax_isMaxOf (x : ℚ) (xs : List ℚ) : IsMaxOf (pyMax x xs) (x :: xs) := by
  induction xs generalizing x with
  | nil => exact ⟨List.mem_singleton.mpr rfl, by simp [pyMax]⟩
  | cons y ys ih =>
    have h := ih (max x y)
    have hm : pyMax x (y :: ys) = pyMax (max x y) ys := rfl
    constructor
    · rw [hm]
      rcases List.mem_cons.mp h.1 with h1 | h1
      · rw [List.mem_cons]
        rcases le_total x y with hxy | hxy
        · right
          rw [List.mem_cons]
          left
          rw [h1, max_eq_right hxy]
        · left
          rw [h1, max_eq_left hxy]
      · exact List.mem_cons_of_mem _ (List.mem_cons_of_mem _ h1)
    · intro z hz
      rw [hm]
      have hmax : max x y ≤ pyMax (max x y) ys := h.2 _ (List.mem_cons_self _ _)
      rcases List.mem_cons.mp hz with hz1 | hz1
      · subst hz1
        exact le_trans (le_max_left _ _) hmax
      · rcases List.mem_cons.mp hz1 with hz2 | hz2
        · subst hz2
          exact le_trans (le_max_right _ _) hmax
        · exact h.2 z (List.mem_cons_of_mem _ hz2)

end Docking

open Docking in
/-- C2: for every coordinate set with at least one validly parsed 3D point,
`compute_box_from_receptor` (with the default `margin = 8`, `min_size = 20`,
`max_size = 28`) returns, per axis, center `(min + max) / 2` and size
`clamp((max − min) + margin, min_size, max_size)`; every computed size
component lies in `[20, 28]`. -/
theorem box_center_size_clamped (lines : List CoordLine)
    (h : parsedCoords lines ≠ []) :
    ∃ mnx mxx mny mxy mnz mxz : ℚ,
      IsMinOf mnx ((parsedCoords lines).map (·.1)) ∧
      IsMaxOf mxx ((parsedCoords lines).map (·.1)) ∧
      IsMinOf mny ((parsedCoords lines).map (·.2.1)) ∧
      IsMaxOf mxy ((parsedCoords lines).map (·.2.1)) ∧
      IsMinOf mnz ((parsedCoords lines).map (·.2.2)) ∧
      IsMaxOf mxz ((parsedCoords lines).map (·.2.2)) ∧
      (compute_box_default lines).1.cx = (mnx + mxx) / 2 ∧
      (compute_box_default lines).1.cy = (mny + mxy) / 2 ∧
      (compute_box_default lines).1.cz = (mnz + mxz) / 2 ∧
      (compute_box_default lines).1.sx = max 20 (min ((mxx - mnx) + 8) 28) ∧
      (compute_box_default lines).1.sy = max 20 (min ((mxy - mny) + 8) 28) ∧
      (compute_box_default lines).1.sz = max 20 (min ((mxz - mnz) + 8) 28) ∧
      (20 ≤ (compute_box_default lines).1.sx ∧ (compute_box_default lines).1.sx ≤ 28) ∧
      (20 ≤ (compute_box_default lines).1.sy ∧ (compute_box_default lines).1.sy ≤ 28) ∧
      (20 ≤ (compute_box_default lines).1.sz ∧ (compute_box_default lines).1.sz ≤ 28) := by
  rcases hC : parsedCoords lines with _ | ⟨c, cs⟩
  · exact absurd hC h
  have hbox : compute_box_default lines = compute_box_core (c :: cs) 8 20 28 := by
    rw [compute_box_default, compute_box_from_receptor, hC]
  refine ⟨pyMin c.1 (cs.map (·.1)), pyMax c.1 (cs.map (·.1)),
          pyMin c.2.1 (cs.map (·.2.1)), pyMax c.2.1 (cs.map (·.2.1)),
          pyMin c.2.2 (cs.map (·.2.2)), pyMax c.2.2 (cs.map (·.2.2)),
          ?_, ?_, ?_, ?_, ?_, ?_, ?_, ?_, ?_, ?_, ?_, ?_, ?_, ?_, ?_⟩
  · rw [List.map_cons]
    exact pyMin_isMinOf _ _
  · rw [List.map_cons]
    exact pyMax_isMaxOf _ _
  · rw [List.map_cons]
    exact pyMin_isMinOf _ _
  · rw [List.map_cons]
    exact pyMax_isMaxOf _ _
  · rw [List.map_cons]
    exact pyMin_isMinOf _ _
  · rw [List.map_cons]
    exact pyMax_isMaxOf _ _
  · rw [hbox]
    rfl
  · rw [hbox]
    rfl
  · rw [hbox]
    rfl
  · rw [hbox]
    rfl
  · rw [hbox]
    rfl
  · rw [hbox]
    rfl
  · rw [hbox]
    exact ⟨le_max_left _ _, max_le (by norm_num) (min_le_right _ _)⟩
  · rw [hbox]
    exact ⟨le_max_left _ _, max_le (by norm_num) (min_le_right _ _)⟩
  · rw [hbox]
    exact ⟨le_max_left _ _, max_le (by norm_num) (min_le_right _ _)⟩

/-- A concrete receptor file with exactly one valid coordinate record,
used to witness `box_center_size_clamped`. -/
def boxWitnessLines : List Docking.CoordLine :=
  [⟨true, some 1, some 2, some 3⟩, ⟨false, some 9, some 9, some 9⟩]

open Docking in
/-- Witness for C2: `boxWitnessLines` parses to one coordinate, and the
theorem applies to it. -/
theorem box_center_size_clamped_witness :
    parsedCoords boxWitnessLines ≠ [] ∧
    ∃ mnx mxx mny mxy mnz mxz : ℚ,
      IsMinOf mnx ((parsedCoords boxWitnessLines).map (·.1)) ∧
      IsMaxOf mxx ((parsedCoords boxWitnessLines).map (·.1)) ∧
      IsMinOf mny ((parsedCoords boxWitnessLines).map (·.2.1)) ∧
      IsMaxOf mxy ((parsedCoords boxWitnessLines).map (·.2.1)) ∧
      IsMinOf mnz ((parsedCoords boxWitnessLines).map (·.2.2)) ∧
      IsMaxOf mxz ((parsedCoords boxWitnessLines).map (·.2.2)) ∧
      (compute_box_default boxWitnessLines).1.cx = (mnx + mxx) / 2 ∧
      (compute_box_default boxWitnessLines).1.cy = (mny + mxy) / 2 ∧
      (compute_box_default boxWitnessLines).1.cz = (mnz + mxz) / 2 ∧
      (compute_box_default boxWitnessLines).1.sx = max 20 (min ((mxx - mnx) + 8) 28) ∧
      (compute_box_default boxWitnessLines).1.sy = max 20 (min ((mxy - mny) + 8) 28) ∧
      (compute_box_default boxWitnessLines).1.sz = max 20 (min ((mxz - mnz) + 8) 28) ∧
      (20 ≤ (compute_box_default boxWitnessLines).1.sx ∧
        (compute_box_default boxWitnessLines).1.sx ≤ 28) ∧
      (20 ≤ (compute_box_default boxWitnessLines).1.sy ∧
        (compute_box_default boxWitnessLines).1.sy ≤ 28) ∧
      (20 ≤ (compute_box_default boxWitnessLines).1.sz ∧
        (compute_box_default boxWitnessLines).1.sz ≤ 28) :=
  ⟨by decide, box_center_size_clamped boxWitnessLines (by decide)⟩

open Docking in
/-- C6: if zero coordinates parse successfully, `compute_box_from_receptor`
returns exactly the fixed default box, center `(0,0,0)` and size
`(24,24,24)`, with the warning flag set (a warning is printed, no error is
raised); and an individual malformed coordinate line is skipped without
affecting the result computed from the remaining lines. -/
theorem box_default_on_no_coords :
    (∀ lines, parsedCoords lines = [] →
       compute_box_default lines = (defaultBox, true)) ∧
    (∀ pre bad post, parseCoordLine bad = none →
       compute_box_default (pre ++ bad :: post) = compute_box_default (pre ++ post)) := by
  constructor
  · intro lines h
    rw [compute_box_default, compute_box_from_receptor, h]
    rfl
  · intro pre bad post h
    rw [compute_box_default, compute_box_default, compute_box_from_receptor,
      compute_box_from_receptor, parsedCoords, parsedCoords,
      List.filterMap_append, List.filterMap_append, List.filterMap_cons, h]

/-- A receptor file whose only ATOM record has an unparsable x field. -/
def noCoordLines : List Docking.CoordLine := [⟨true, none, some 2, some 3⟩]

open Docking in
/-- Witness for C6: `noCoordLines` parses to zero coordinates and the
default box is returned; dropping the malformed line leaves the result
unchanged. -/
theorem box_default_on_no_coords_witness :
    parsedCoords noCoordLines = [] ∧
    compute_box_default noCoordLines = (defaultBox, true) ∧
    compute_box_default ([] ++ (⟨true, none, some 2, some 3⟩ : CoordLine) :: []) =
      compute_box_default ([] ++ []) :=
  ⟨by decide, box_default_on_no_coords.1 noCoordLines (by decide),
    box_default_on_no_coords.2 [] ⟨true, none, some 2, some 3⟩ [] (by decide)⟩


namespace Docking

/-! ## `scripts/docking.py` — `parse_binding_affinity` (ResultParser)

The Python code scans the captured log line by line; on the first line whose
stripped text starts with `"REMARK VINA RESULT:"` it splits on whitespace,
assigns `affinity = float(parts[3])` when `len(parts) >= 4`, and `break`s.
A `float()` failure propagates to the surrounding `except`, which prints a
`[WARN]` and leaves `affinity = None`.  No line matching simply returns
`None` with no output. -/

/-- One line of a captured vina log, reduced to what the two result parsers
observe: whether the stripped line starts with `REMARK VINA RESULT:`, and
the whitespace-split tokens, each recorded as the outcome of `float()` on it
(`none` models a `float()` that raises). -/
structure LogLine where
  marker : Bool
  tokens : List (Option ℚ)

/-- `parse_binding_affinity` of `docking.py`.  Returns the parsed affinity
(`none` if absent) and whether the `[WARN] Could not parse affinity` message
was printed. -/
def parse_binding_affinity : List LogLine → Option ℚ × Bool
  | [] => (none, false)
  | ln :: rest =>
    if ln.marker then
      match ln.tokens.drop 3 with
      | [] => (none, false)
      | t :: _ =>
        match t with
        | some q => (some q, false)
        | none => (none, true)
    else parse_binding_affinity rest

end Docking

namespace ExtractResults

/-- `parse_binding_affinity` of `extract_results.py`.  Same scan, but with
no `len(parts) >= 4` guard: a matching line with fewer than four tokens
raises `IndexError`, which the surrounding `except` turns into a `[WARN]`
and a `None` result. -/
def parse_binding_affinity : List Docking.LogLine → Option ℚ × Bool
  | [] => (none, false)
  | ln :: rest =>
    if ln.marker then
      match ln.tokens.drop 3 with
      | [] => (none, true)
      | t :: _ =>
        match t with
        | some q => (some q, false)
        | none => (none, true)
    else parse_binding_affinity rest

end ExtractResults

open Docking in
/-- C5 counterexample: on output text with no result-marker line, both
result parsers return the absent value with **no** logged warning,
contradicting the claim that a missing match comes "with a logged
warning". -/
theorem no_marker_line_is_silent :
    Docking.parse_binding_affinity [⟨false, []⟩] = (none, false) ∧
    ExtractResults.parse_binding_affinity [⟨false, []⟩] = (none, false) :=
  ⟨rfl, rfl⟩

open Docking in
/-- C5 (amended): both result parsers take the score from token position 3
of the first marker line, ignoring all later lines; a marker line whose
token fails to parse yields an absent value with a warning (in the CSV
extractor also when the line has fewer than four tokens); text with no
marker line yields an absent value silently; no case is a fatal error. -/
theorem first_result_line_wins :
    (∀ pre ln rest, (∀ l ∈ pre, l.marker = false) → ln.marker = true →
       Docking.parse_binding_affinity (pre ++ ln :: rest) =
         Docking.parse_binding_affinity [ln]) ∧
    (∀ pre ln rest, (∀ l ∈ pre, l.marker = false) → ln.marker = true →
       ExtractResults.parse_binding_affinity (pre ++ ln :: rest) =
         ExtractResults.parse_binding_affinity [ln]) ∧
    (∀ (ln : LogLine) rest q ts, ln.marker = true → ln.tokens.drop 3 = some q :: ts →
       Docking.parse_binding_affinity (ln :: rest) = (some q, false) ∧
       ExtractResults.parse_binding_affinity (ln :: rest) = (some q, false)) ∧
    (∀ (ln : LogLine) rest ts, ln.marker = true → ln.tokens.drop 3 = none :: ts →
       Docking.parse_binding_affinity (ln :: rest) = (none, true) ∧
       ExtractResults.parse_binding_affinity (ln :: rest) = (none, true)) ∧
    (∀ (ln : LogLine) rest, ln.marker = true → ln.tokens.drop 3 = [] →
       Docking.parse_binding_affinity (ln :: rest) = (none, false) ∧
       ExtractResults.parse_binding_affinity (ln :: rest) = (none, true)) ∧
    (∀ lines, (∀ l ∈ lines, l.marker = false) →
       Docking.parse_binding_affinity lines = (none, false) ∧
       ExtractResults.parse_binding_affinity lines = (none, false)) := by
  have skip_d : ∀ pre ln rest, (∀ l ∈ pre, l.marker = false) →
      Docking.parse_binding_affinity (pre ++ ln :: rest) =
        Docking.parse_binding_affinity (ln :: rest) := by
    intro pre ln rest hpre
    induction pre with
    | nil => rfl
    | cons p ps ih =>
      have hp : p.marker = false := hpre p (List.mem_cons_self _ _)
      rw [List.cons_append, Docking.parse_binding_affinity, hp]
      simp only [Bool.false_eq_true, if_false]
      exact ih fun l hl => hpre l (List.mem_cons_of_mem _ hl)
  have skip_e : ∀ pre ln rest, (∀ l ∈ pre, l.marker = false) →
      ExtractResults.parse_binding_affinity (pre ++ ln :: rest) =
        ExtractResults.parse_binding_affinity (ln :: rest) := by
    intro pre ln rest hpre
    induction pre with
    | nil => rfl
    | cons p ps ih =>
      have hp : p.marker = false := hpre p (List.mem_cons_self _ _)
      rw [List.cons_append, ExtractResults.parse_binding_affinity, hp]
      simp only [Bool.false_eq_true, if_false]
      exact ih fun l hl => hpre l (List.mem_cons_of_mem _ hl)
  have stop_d : ∀ (ln : LogLine) rest, ln.marker = true →
      Docking.parse_binding_affinity (ln :: rest) =
        Docking.parse_binding_affinity [ln] := by
    intro ln rest hm
    rw [Docking.parse_binding_affinity, Docking.parse_binding_affinity, hm]
    simp
  have stop_e : ∀ (ln : LogLine) rest, ln.marker = true →
      ExtractResults.parse_binding_affinity (ln :: rest) =
        ExtractResults.parse_binding_affinity [ln] := by
    intro ln rest hm
    rw [ExtractResults.parse_binding_affinity, ExtractResults.parse_binding_affinity, hm]
    simp
  refine ⟨?_, ?_, ?_, ?_, ?_, ?_⟩
  · intro pre ln rest hpre hm
    rw [skip_d pre ln rest hpre, stop_d ln rest hm]
  · intro pre ln rest hpre hm
    rw [skip_e pre ln rest hpre, stop_e ln rest hm]
  · intro ln rest q ts hm ht
    constructor
    · rw [Docking.parse_binding_affinity, hm]
      simp only [if_true, ht]
    · rw [ExtractResults.parse_binding_affinity, hm]
      simp only [if_true, ht]
  · intro ln rest ts hm ht
    constructor
    · rw [Docking.parse_binding_affinity, hm]
      simp only [if_true, ht]
    · rw [ExtractResults.parse_binding_affinity, hm]
      simp only [if_true, ht]
  · intro ln rest hm ht
    constructor
    · rw [Docking.parse_binding_affinity, hm]
      simp only [if_true, ht]
    · rw [ExtractResults.parse_binding_affinity, hm]
      simp only [if_true, ht]
  · intro lines hall
    induction lines with
    | nil => exact ⟨rfl, rfl⟩
    | cons p ps ih =>
      have hp : p.marker = false := hall p (List.mem_cons_self _ _)
      have hrest := ih fun l hl => hall l (List.mem_cons_of_mem _ hl)
      constructor
      · rw [Docking.parse_binding_affinity, hp]
        simp only [Bool.false_eq_true, if_false]
        exact hrest.1
      · rw [ExtractResults.parse_binding_affinity, hp]
        simp only [Bool.false_eq_true, if_false]
        exact hrest.2

/-- The log text of the spec's example: a first result line reporting
`-7.1` and a second reporting `-8.4` (tokens `REMARK VINA RESULT: <score>`,
only the fourth of which parses as a float). -/
def twoResultLines : List Docking.LogLine :=
  [⟨true, [none, none, none, some (-71/10)]⟩,
   ⟨true, [none, none, none, some (-84/10)]⟩]

open Docking in
/-- Witness for C5 (amended): on `twoResultLines` both parsers stop at the
first result line and report `-7.1`, not the later `-8.4`. -/
theorem first_result_line_wins_witness :
    (∀ l ∈ ([] : List LogLine), l.marker = false) ∧
    (⟨true, [none, none, none, some (-71/10)]⟩ : LogLine).marker = true ∧
    (⟨true, [none, none, none, some (-71/10)]⟩ : LogLine).tokens.drop 3 =
      some (-71/10) :: [] ∧
    Docking.parse_binding_affinity twoResultLines = (some (-71/10), false) ∧
    ExtractResults.parse_binding_affinity twoResultLines = (some (-71/10), false) := by
  refine ⟨fun l hl => absurd hl (List.not_mem_nil l), rfl, rfl, ?_, ?_⟩
  · exact (first_result_line_wins.2.2.1 ⟨true, [none, none, none, some (-71/10)]⟩
      [⟨true, [none, none, none, some (-84/10)]⟩] (-71/10) [] rfl rfl).1
  · exact (first_result_line_wins.2.2.1 ⟨true, [none, none, none, some (-71/10)]⟩
      [⟨true, [none, none, none, some (-84/10)]⟩] (-71/10) [] rfl rfl).2

namespace PrepareInputs

/-! ## `scripts/prepare_inputs.py` — preparation stage (ArtifactStore skip
logic, per-item drivers, exit code)

`FORCE_REBUILD = os.environ.get("FORCE_REBUILD", "0") in ("1", "true",
"True")`.  `prepare_receptor` always runs the alt-loc splitter first, then
skips when the output artifact exists and the force flag is off;
`prepare_ligand` skips before any tool invocation.  The `__main__` driver
prepares every receptor and ligand, counting successes, and exits 2 when a
category with at least one input produced zero artifacts. -/

/-- The environment toggle: `os.environ.get("FORCE_REBUILD", "0") in
("1", "true", "True")`; `none` models an unset variable. -/
def FORCE_REBUILD (envVal : Option String) : Bool :=
  decide (envVal.getD "0" ∈ (["1", "true", "True"] : List String))

/-- Per-ligand environment for `prepare_ligand`: artifact stem name, input
file presence, output artifact presence, whether the MGLTools interpreter
spawns (`OSError` otherwise), and `prepare_ligand4.py`'s exit code. -/
structure PrepItem where
  name : String
  srcExists : Bool
  outExists : Bool
  toolRunnable : Bool
  toolExit : Nat
  deriving DecidableEq

/-- Per-receptor environment for `prepare_receptor`; `splitProduced` is
whether `_maybe_split_altloc` yielded an alternate split file (affects only
an `[INFO]` log line). -/
structure RecItem where
  name : String
  srcExists : Bool
  outExists : Bool
  splitProduced : Bool
  toolRunnable : Bool
  toolExit : Nat
  deriving DecidableEq

/-- `prepare_ligand(ligand_file_path)`: events and returned boolean, in
source order — missing input, then the skip-if-exists check, then the
`prepare_ligand4.py` invocation (the artifact write is the tool's effect on
success). -/
def prepare_ligand (force : Bool) (it : PrepItem) : List Event × Bool :=
  if it.srcExists = false then ([Event.log "[ERROR] Ligand not found"], false)
  else if force = false ∧ it.outExists = true then
    ([Event.log "[SKIP] Ligand exists"], true)
  else if it.toolRunnable = false then
    ([Event.log "[ERROR] Could not run MGLTools"], false)
  else if it.toolExit = 0 then
    ([Event.invoke "mgltools-python" "prepare_ligand4.py",
      Event.write ("results/docking/ligands/" ++ it.name ++ ".pdbqt"),
      Event.log "[OK] Ligand"], true)
  else
    ([Event.invoke "mgltools-python" "prepare_ligand4.py",
      Event.log "[ERROR] prepare_ligand failed"], false)

/-- `prepare_receptor(pdb_file_path)`: `_maybe_split_altloc` (an external
`prepare_pdb_split_alt_confs.py` invocation) runs **before** the
skip-if-exists check; only `prepare_receptor4.py` is guarded by it. -/
def prepare_receptor (force : Bool) (it : RecItem) : List Event × Bool :=
  if it.srcExists = false then ([Event.log "[ERROR] Protein not found"], false)
  else
    let splitEvs := Event.invoke "mgltools-python" "prepare_pdb_split_alt_confs.py" ::
      (if it.splitProduced then [Event.log "[INFO] Using split alt-loc file"] else [])
    if force = false ∧ it.outExists = true then
      (splitEvs ++ [Event.log "[SKIP] Receptor exists"], true)
    else if it.toolRunnable = false then
      (splitEvs ++ [Event.log "[ERROR] Could not run MGLTools"], false)
    else if it.toolExit = 0 then
      (splitEvs ++ [Event.invoke "mgltools-python" "prepare_receptor4.py",
        Event.write ("results/docking/receptors/" ++ it.name ++ ".pdbqt"),
        Event.log "[OK] Receptor"], true)
    else
      (splitEvs ++ [Event.invoke "mgltools-python" "prepare_receptor4.py",
        Event.log "[ERROR] prepare_receptor failed"], false)

/-- Environment of the `__main__` driver: force flag, `_check_tools`
outcome, and the (already enumerated and sorted) receptor and ligand work
items. -/
structure PrepMainEnv where
  force : Bool
  toolsOk : Bool
  protItems : List RecItem
  ligItems : List PrepItem

/-- The `__main__` driver of `prepare_inputs.py`: check tools, prepare all
receptors then all ligands counting successes, and exit 2 iff a category
with at least one input produced zero successes (else exit 0). -/
def prepareMain (env : PrepMainEnv) : List Event × Nat :=
  if env.toolsOk = false then ([Event.log "[ERROR] MGLTools python not found"], 1)
  else
    let okRec := (env.protItems.map fun it => (prepare_receptor env.force it).2).count true
    let okLig := (env.ligItems.map fun it => (prepare_ligand env.force it).2).count true
    ((env.protItems.flatMap fun it => (prepare_receptor env.force it).1) ++
       (env.ligItems.flatMap fun it => (prepare_ligand env.force it).1),
     if (okRec = 0 ∧ 0 < env.protItems.length) ∨ (okLig = 0 ∧ 0 < env.ligItems.length)
     then 2 else 0)

end PrepareInputs

/-- C7: the build decision skips (logging `[SKIP]`, invoking nothing)
exactly when the force-rebuild flag is false and the artifact exists; the
flag is true exactly for the environment strings `"1"`, `"true"`, `"True"`;
and with force-rebuild on, the external tool is invoked even when the
artifact exists. -/
theorem skip_decision_and_force_flag :
    (∀ v : Option String, PrepareInputs.FORCE_REBUILD v = true ↔
       (v = some "1" ∨ v = some "true" ∨ v = some "True")) ∧
    (∀ (force : Bool) (it : PrepareInputs.PrepItem), it.srcExists = true →
       ((Event.log "[SKIP] Ligand exists" ∈ (PrepareInputs.prepare_ligand force it).1 ∧
         Event.invoke "mgltools-python" "prepare_ligand4.py" ∉
           (PrepareInputs.prepare_ligand force it).1) ↔
        (force = false ∧ it.outExists = true))) ∧
    (∀ it : PrepareInputs.PrepItem, it.srcExists = true → it.toolRunnable = true →
       Event.invoke "mgltools-python" "prepare_ligand4.py" ∈
         (PrepareInputs.prepare_ligand true it).1) := by
  refine ⟨?_, ?_, ?_⟩
  · intro v
    rcases v with _ | s
    · simp [PrepareInputs.FORCE_REBUILD]
    · simp [PrepareInputs.FORCE_REBUILD]
  · intro force it hsrc
    by_cases hskip : force = false ∧ it.outExists = true
    · simp [PrepareInputs.prepare_ligand, hsrc, hskip]
    · by_cases hrun : it.toolRunnable = false
      · simp [PrepareInputs.prepare_ligand, hsrc, hskip, hrun]
      · by_cases hexit : it.toolExit = 0
        · simp [PrepareInputs.prepare_ligand, hsrc, hskip, hrun, hexit]
        · simp [PrepareInputs.prepare_ligand, hsrc, hskip, hrun, hexit]
  · intro it hsrc hrun
    by_cases hexit : it.toolExit = 0
    · simp [PrepareInputs.prepare_ligand, hsrc, hrun, hexit]
    · simp [PrepareInputs.prepare_ligand, hsrc, hrun, hexit]

/-- A ligand item whose input and output artifact both exist. -/
def existingLigItem : PrepareInputs.PrepItem := ⟨"LIG", true, true, true, 0⟩

/-- Witness for C7: with the flag string `"1"` the force flag is on; with
force off, the existing artifact is skipped without invoking the tool; with
force on, the tool is invoked although the artifact exists. -/
theorem skip_decision_and_force_flag_witness :
    PrepareInputs.FORCE_REBUILD (some "1") = true ∧
    (Event.log "[SKIP] Ligand exists" ∈
       (PrepareInputs.prepare_ligand false existingLigItem).1 ∧
     Event.invoke "mgltools-python" "prepare_ligand4.py" ∉
       (PrepareInputs.prepare_ligand false existingLigItem).1) ∧
    Event.invoke "mgltools-python" "prepare_ligand4.py" ∈
      (PrepareInputs.prepare_ligand true existingLigItem).1 :=
  ⟨(skip_decision_and_force_flag.1 (some "1")).mpr (Or.inl rfl),
   (skip_decision_and_force_flag.2.1 false existingLigItem rfl).mpr ⟨rfl, rfl⟩,
   skip_decision_and_force_flag.2.2 existingLigItem rfl rfl⟩

/-- C9 (amended): the preparation driver exits 2 iff some input category
(receptors or ligands) has at least one input but zero successfully
prepared artifacts — even if the *other* category produced artifacts — and
otherwise exits 0. -/
theorem exit2_iff_category_produced_nothing (env : PrepareInputs.PrepMainEnv)
    (h : env.toolsOk = true) :
    ((PrepareInputs.prepareMain env).2 = 2 ↔
      ((env.protItems ≠ [] ∧
         ∀ it ∈ env.protItems, (PrepareInputs.prepare_receptor env.force it).2 = false) ∨
       (env.ligItems ≠ [] ∧
         ∀ it ∈ env.ligItems, (PrepareInputs.prepare_ligand env.force it).2 = false))) ∧
    ((PrepareInputs.prepareMain env).2 = 0 ∨ (PrepareInputs.prepareMain env).2 = 2) := by
  have hexit : (PrepareInputs.prepareMain env).2 =
      if (((env.protItems.map fun it => (PrepareInputs.prepare_receptor env.force it).2).count true = 0 ∧
            0 < env.protItems.length) ∨
          ((env.ligItems.map fun it => (PrepareInputs.prepare_ligand env.force it).2).count true = 0 ∧
            0 < env.ligItems.length))
      then 2 else 0 := by
    simp [PrepareInputs.prepareMain, h]
  constructor
  · rw [hexit]
    split
    · rename_i hc
      simp only [iff_true_left]
      · rcases hc with ⟨hcnt, hlen⟩ | ⟨hcnt, hlen⟩
        · left
          refine ⟨List.length_pos.mp hlen, ?_⟩
          intro it hit
          have := List.count_eq_zero.mp hcnt
          simp only [List.mem_map, not_exists, not_and] at this
          have h2 := this it hit
          exact Bool.not_eq_true _ |>.mp h2
        · right
          refine ⟨List.length_pos.mp hlen, ?_⟩
          intro it hit
          have := List.count_eq_zero.mp hcnt
          simp only [List.mem_map, not_exists, not_and] at this
          have h2 := this it hit
          exact Bool.not_eq_true _ |>.mp h2
    · rename_i hc
      simp only [OfNat.zero_ne_ofNat, false_iff]
      intro hcontra
      apply hc
      rcases hcontra with ⟨hne, hall⟩ | ⟨hne, hall⟩
      · left
        refine ⟨List.count_eq_zero.mpr ?_, List.length_pos.mpr hne⟩
        simp only [List.mem_map, not_exists, not_and]
        intro it hit
        rw [hall it hit]
        decide
      · right
        refine ⟨List.count_eq_zero.mpr ?_, List.length_pos.mpr hne⟩
        simp only [List.mem_map, not_exists, not_and]
        intro it hit
        rw [hall it hit]
        decide
  · rw [hexit]
    split
    · right
      rfl
    · left
      rfl

/-- Driver environment where the only receptor fails to prepare but the
only ligand succeeds: one artifact is produced, yet the exit code is 2. -/
def prepOneFailEnv : PrepareInputs.PrepMainEnv :=
  ⟨false, true, [⟨"P", true, false, false, true, 1⟩], [⟨"L", true, false, true, 0⟩]⟩

/-- C9 counterexample: the driver exits 2 although it produced an artifact
(the ligand write event) while inputs were present, contradicting
"producing at least one artifact while inputs exist never yields exit
code 2". -/
theorem exit2_despite_artifact :
    (PrepareInputs.prepareMain prepOneFailEnv).2 = 2 ∧
    Event.write "results/docking/ligands/L.pdbqt" ∈
      (PrepareInputs.prepareMain prepOneFailEnv).1 ∧
    prepOneFailEnv.protItems ≠ [] ∧ prepOneFailEnv.ligItems ≠ [] := by
  decide

/-- Driver environment with no receptors and one succeeding ligand. -/
def prepOkEnv : PrepareInputs.PrepMainEnv :=
  ⟨false, true, [], [⟨"L", true, false, true, 0⟩]⟩

/-- Witness for C9 (amended): on `prepOkEnv` the theorem applies and the
exit code is 0 or 2 (here 0: the ligand category succeeded and the receptor
category is empty). -/
theorem exit2_iff_category_produced_nothing_witness :
    prepOkEnv.toolsOk = true ∧
    ((PrepareInputs.prepareMain prepOkEnv).2 = 0 ∨
      (PrepareInputs.prepareMain prepOkEnv).2 = 2) :=
  ⟨rfl, (exit2_iff_category_produced_nothing prepOkEnv rfl).2⟩

namespace Docking

/-! ## `scripts/docking.py` — `run_docking` and the `__main__` pair loop

`run_docking` computes the search box (manual table first — it is empty in
the source, the lone `"5CRB"` entry being commented out), builds the
`receptor__ligand` output names, tees the vina output into the `.log` file,
and returns the log path on success or `None` on failure.  It never
consults the file system for an existing output artifact.  The `__main__`
loop runs every receptor×ligand pair, merely skipping result collection for
failed pairs, and always falls off the end with exit status 0. -/

/-- `MANUAL_BOX` of `docking.py`: the dictionary literal is empty (its only
entry is commented out). -/
def MANUAL_BOX : List (String × ((ℚ × ℚ × ℚ) × (ℚ × ℚ × ℚ))) := []

/-- `"%s__%s_out.pdbqt" % (receptor_name, ligand_name)`. -/
def dockingOutName (r l : String) : String := r ++ "__" ++ l ++ "_out.pdbqt"

/-- `"%s__%s.log" % (receptor_name, ligand_name)`. -/
def dockingLogName (r l : String) : String := r ++ "__" ++ l ++ ".log"

/-- Environment of `docking.py`: presence of the vina executable, of the
receptor/ligand folders, the `.pdbqt` stems found in them, whether a vina
spawn succeeds, each pair's vina exit code, the receptor files' coordinate
lines, each pair's captured log text, and which pose artifacts already
exist on disk (the script never reads the latter). -/
structure DockMainEnv where
  vinaPresent : Bool
  receptorDirOk : Bool
  ligandDirOk : Bool
  receptors : List String
  ligands : List String
  vinaRunnable : Bool
  vinaExit : String → String → Nat
  receptorLines : String → List CoordLine
  logLines : String → String → List LogLine
  outExists : String → String → Bool

/-- `run_docking(receptor_path, ligand_path)` for the pair of stems
`(r, l)`: manual box lookup, else computed box (whose `[WARN]` may print),
then vina invocation teeing into the log file; returns the log path on exit
0, `None` otherwise.  There is no skip-if-exists check. -/
def run_docking (env : DockMainEnv) (r l : String) : List Event × Option String :=
  let boxWarn : List Event :=
    match MANUAL_BOX.lookup r with
    | some _ => []
    | none =>
      if (compute_box_default (env.receptorLines r)).2
      then [Event.log "[WARN] No receptor coords parsed; using DEFAULT box."]
      else []
  if env.vinaRunnable = false then
    (boxWarn ++ [Event.log "[ERROR] Could not execute Vina"], none)
  else if env.vinaExit r l = 0 then
    (boxWarn ++ [Event.invoke "vina" (dockingOutName r l),
      Event.write (dockingLogName r l), Event.log "[OK] Docking complete"],
     some (dockingLogName r l))
  else
    (boxWarn ++ [Event.invoke "vina" (dockingOutName r l),
      Event.write (dockingLogName r l), Event.log "[ERROR] Docking failed"], none)

/-- The `__main__` of `docking.py`: upfront checks, then the nested
receptor×ligand loop; a failed pair only skips result collection (its
affinity parse), and after the loop the summary prints and the process
exits 0. -/
def dockingMain (env : DockMainEnv) : List Event × Nat :=
  if env.vinaPresent = false then
    ([Event.log "[ERROR] Vina executable not found"], 1)
  else if env.receptorDirOk = false ∨ env.ligandDirOk = false then
    ([Event.log "[ERROR] Expected receptor/ligand folders"], 1)
  else if env.receptors = [] then
    ([Event.log "[ERROR] No receptor PDBQT files found"], 1)
  else if env.ligands = [] then
    ([Event.log "[ERROR] No ligand PDBQT files found"], 1)
  else
    (env.receptors.flatMap fun r =>
      env.ligands.flatMap fun l =>
        (run_docking env r l).1 ++
          match (run_docking env r l).2 with
          | some _ =>
            if (parse_binding_affinity (env.logLines r l)).2
            then [Event.log "[WARN] Could not parse affinity"]
            else []
          | none => [], 0)

end Docking

namespace RunDocking

/-! ## `scripts/run_docking.py` — the stage sequencer (`main` + `run_cmd`)

`run_cmd` streams and tees a child's output and calls
`sys.exit(p.returncode)` on a nonzero exit (the `SystemExit` passes through
the top-level `except Exception`).  `main` runs the seven steps in order;
the MGLTools interpreter is checked only immediately before step 2, the
vizdock interpreter is *used* unchecked at step 1.5 (a failed spawn is an
`OSError` caught by the top-level handler, exit 1) and checked only before
step 5.  Nothing is verified before step 1. -/

/-- Environment of the sequencer: which interpreters/scripts exist, whether
the output folder survives until the post-docking check, and each step's
child exit code. -/
structure SeqEnv where
  downloaderPresent : Bool
  altDownloaderPresent : Bool
  vizdockPresent : Bool
  mgltoolsPresent : Bool
  outputDirOk : Bool
  code1 : Nat
  code15 : Nat
  code2 : Nat
  code3 : Nat
  code4 : Nat
  code5 : Nat
  code6 : Nat
  deriving DecidableEq

/-- `main()` of `run_docking.py` (with the `run_cmd` abort rule inlined at
each step, in source order), returning the event trace and the process exit
status. -/
def mainTrace (env : SeqEnv) : List Event × Nat :=
  if env.downloaderPresent = false ∧ env.altDownloaderPresent = false then
    ([Event.log "ERROR: No downloader found"], 1)
  else
    let dl := if env.downloaderPresent then "download_data.py" else "downlaod_inputs.py"
    let e1 := [Event.invoke "python" dl]
    if env.code1 ≠ 0 then (e1 ++ [Event.log "[ERROR] Command failed"], env.code1)
    else if env.vizdockPresent = false then (e1 ++ [Event.log "[FATAL]"], 1)
    else
      let e15 := e1 ++ [Event.invoke "vizdock-python" "convert_sdf_to_pdb.py"]
      if env.code15 ≠ 0 then (e15 ++ [Event.log "[ERROR] Command failed"], env.code15)
      else if env.mgltoolsPresent = false then
        (e15 ++ [Event.log "ERROR: MGLTools python not found"], 1)
      else
        let e2 := e15 ++ [Event.invoke "mgltools-python" "prepare_inputs.py"]
        if env.code2 ≠ 0 then (e2 ++ [Event.log "[ERROR] Command failed"], env.code2)
        else
          let e3 := e2 ++ [Event.invoke "mgltools-python" "docking.py"]
          if env.code3 ≠ 0 then (e3 ++ [Event.log "[ERROR] Command failed"], env.code3)
          else if env.outputDirOk = false then
            (e3 ++ [Event.log "ERROR: Output folder not found"], 1)
          else
            let e4 := e3 ++ [Event.invoke "mgltools-python" "extract_results.py"]
            if env.code4 ≠ 0 then (e4 ++ [Event.log "[ERROR] Command failed"], env.code4)
            else if env.vizdockPresent = false then
              (e4 ++ [Event.log "ERROR: vizdock python not found"], 1)
            else
              let e5 := e4 ++ [Event.invoke "vizdock-python" "check_install_packages.py"]
              if env.code5 ≠ 0 then (e5 ++ [Event.log "[ERROR] Command failed"], env.code5)
              else
                let e6 := e5 ++ [Event.invoke "vizdock-python" "visualize.py"]
                if env.code6 ≠ 0 then (e6 ++ [Event.log "[ERROR] Command failed"], env.code6)
                else (e6 ++ [Event.log "[7/7] Workflow completed successfully!"], 0)

end RunDocking

/-- C1 (amended): a nonzero child exit status at the sequencer level aborts
the whole run with exactly that status — when the preparation step exits
nonzero, the docking, extraction, package-check and visualization steps are
never invoked — but *within* the docking stage a nonzero vina exit for one
receptor–ligand pair does not abort: every pair is still invoked and the
stage itself exits 0. -/
theorem sequencer_aborts_but_pair_loop_continues :
    (∀ env : RunDocking.SeqEnv, env.downloaderPresent = true →
       env.vizdockPresent = true → env.mgltoolsPresent = true →
       env.code1 = 0 → env.code15 = 0 → env.code2 ≠ 0 →
       RunDocking.mainTrace env =
         ([Event.invoke "python" "download_data.py",
           Event.invoke "vizdock-python" "convert_sdf_to_pdb.py",
           Event.invoke "mgltools-python" "prepare_inputs.py",
           Event.log "[ERROR] Command failed"], env.code2)) ∧
    (∀ env : Docking.DockMainEnv, env.vinaPresent = true →
       env.receptorDirOk = true → env.ligandDirOk = true →
       env.vinaRunnable = true → env.receptors ≠ [] → env.ligands ≠ [] →
       (Docking.dockingMain env).2 = 0 ∧
       ∀ r ∈ env.receptors, ∀ l ∈ env.ligands,
         Event.invoke "vina" (Docking.dockingOutName r l) ∈ (Docking.dockingMain env).1) := by
  constructor
  · intro env hdl hviz hmgl hc1 hc15 hc2
    simp [RunDocking.mainTrace, hdl, hviz, hmgl, hc1, hc15, hc2]
  · intro env hvina hrd hld hrun hrne hlne
    have hM : Docking.dockingMain env =
        (env.receptors.flatMap fun r =>
          env.ligands.flatMap fun l =>
            (Docking.run_docking env r l).1 ++
              match (Docking.run_docking env r l).2 with
              | some _ =>
                if (Docking.parse_binding_affinity (env.logLines r l)).2
                then [Event.log "[WARN] Could not parse affinity"]
                else []
              | none => [], 0) := by
      rw [Docking.dockingMain]
      simp [hvina, hrd, hld, hrne, hlne]
    refine ⟨by rw [hM], ?_⟩
    intro r hr l hl
    rw [hM]
    have hin : Event.invoke "vina" (Docking.dockingOutName r l) ∈
        (Docking.run_docking env r l).1 := by
      rw [Docking.run_docking]
      simp only [hrun]
      by_cases he : env.vinaExit r l = 0
      · simp [he, Docking.MANUAL_BOX]
      · simp [he, Docking.MANUAL_BOX]
    exact List.mem_flatMap.mpr ⟨r, hr,
      List.mem_flatMap.mpr ⟨l, hl, List.mem_append_left _ hin⟩⟩

/-- A docking environment with one receptor and two ligands where the first
pair's vina run exits 5 and the second exits 0. -/
def pairFailEnv : Docking.DockMainEnv :=
  ⟨true, true, true, ["R"], ["L1", "L2"], true,
   fun _ l => if l = "L1" then 5 else 0,
   fun _ => [], fun _ _ => [], fun _ _ => false⟩

/-- C1 counterexample: the first pair fails with exit 5, yet the second
pair is still docked and `docking.py` itself exits 0 — the run neither
aborts on the failed pair nor propagates status 5. -/
theorem failed_pair_does_not_abort :
    pairFailEnv.vinaExit "R" "L1" = 5 ∧
    Event.invoke "vina" (Docking.dockingOutName "R" "L2") ∈
      (Docking.dockingMain pairFailEnv).1 ∧
    (Docking.dockingMain pairFailEnv).2 = 0 := by
  decide

/-- Sequencer environment where the preparation step exits 5 and everything
else is healthy. -/
def seqAbortEnv : RunDocking.SeqEnv :=
  ⟨true, false, true, true, true, 0, 0, 5, 0, 0, 0, 0⟩

/-- Witness for C1 (amended): with the preparation step exiting 5 the
sequencer stops there with status 5; and on `pairFailEnv` every pair is
invoked and the docking stage exits 0. -/
theorem sequencer_aborts_but_pair_loop_continues_witness :
    seqAbortEnv.code2 ≠ 0 ∧
    RunDocking.mainTrace seqAbortEnv =
      ([Event.invoke "python" "download_data.py",
        Event.invoke "vizdock-python" "convert_sdf_to_pdb.py",
        Event.invoke "mgltools-python" "prepare_inputs.py",
        Event.log "[ERROR] Command failed"], seqAbortEnv.code2) ∧
    (Docking.dockingMain pairFailEnv).2 = 0 ∧
    (∀ r ∈ pairFailEnv.receptors, ∀ l ∈ pairFailEnv.ligands,
      Event.invoke "vina" (Docking.dockingOutName r l) ∈
        (Docking.dockingMain pairFailEnv).1) :=
  ⟨by decide,
   sequencer_aborts_but_pair_loop_continues.1 seqAbortEnv rfl rfl rfl rfl rfl (by decide),
   (sequencer_aborts_but_pair_loop_continues.2 pairFailEnv rfl rfl rfl rfl
     (by decide) (by decide)).1,
   (sequencer_aborts_but_pair_loop_continues.2 pairFailEnv rfl rfl rfl rfl
     (by decide) (by decide)).2⟩

/-- C4 (amended): the sequencer performs no upfront verification of the
stages' interpreters: the MGLTools interpreter is checked only after the
download and SDF-conversion steps have already run (failing then with exit
1), and a missing vizdock interpreter surfaces even earlier as a failed
spawn at the conversion step — after the download step has run. -/
theorem tool_checks_are_interleaved :
    (∀ env : RunDocking.SeqEnv, env.downloaderPresent = true →
       env.vizdockPresent = true → env.mgltoolsPresent = false →
       env.code1 = 0 → env.code15 = 0 →
       RunDocking.mainTrace env =
         ([Event.invoke "python" "download_data.py",
           Event.invoke "vizdock-python" "convert_sdf_to_pdb.py",
           Event.log "ERROR: MGLTools python not found"], 1)) ∧
    (∀ env : RunDocking.SeqEnv, env.downloaderPresent = true →
       env.vizdockPresent = false → env.code1 = 0 →
       RunDocking.mainTrace env =
         ([Event.invoke "python" "download_data.py", Event.log "[FATAL]"], 1)) := by
  constructor
  · intro env hdl hviz hmgl hc1 hc15
    simp [RunDocking.mainTrace, hdl, hviz, hmgl, hc1, hc15]
  · intro env hdl hviz hc1
    simp [RunDocking.mainTrace, hdl, hviz, hc1]

/-- Sequencer environment with a missing MGLTools interpreter and all
other steps healthy. -/
def mglMissingEnv : RunDocking.SeqEnv :=
  ⟨true, false, true, false, true, 0, 0, 0, 0, 0, 0, 0⟩

/-- C4 counterexample: with the MGLTools interpreter missing, the
sequencer still runs the download and SDF-conversion steps before failing
— it does not fail before any stage runs. -/
theorem stage_runs_before_tool_check :
    mglMissingEnv.mgltoolsPresent = false ∧
    Event.invoke "python" "download_data.py" ∈ (RunDocking.mainTrace mglMissingEnv).1 ∧
    Event.invoke "vizdock-python" "convert_sdf_to_pdb.py" ∈
      (RunDocking.mainTrace mglMissingEnv).1 ∧
    (RunDocking.mainTrace mglMissingEnv).2 = 1 := by
  decide

/-- Witness for C4 (amended): the first branch of the theorem applied to
`mglMissingEnv`. -/
theorem tool_checks_are_interleaved_witness :
    mglMissingEnv.mgltoolsPresent = false ∧
    RunDocking.mainTrace mglMissingEnv =
      ([Event.invoke "python" "download_data.py",
        Event.invoke "vizdock-python" "convert_sdf_to_pdb.py",
        Event.log "ERROR: MGLTools python not found"], 1) :=
  ⟨rfl, tool_checks_are_interleaved.1 mglMissingEnv rfl rfl rfl rfl rfl⟩

/-- C3 (amended): with force-rebuild off and the artifact present, the
preparation stage's converters skip re-invoking `prepare_ligand4.py` /
`prepare_receptor4.py`, log a `[SKIP]` line and leave the artifact
untouched (no write events, hence byte-identical on a second run) — but
the receptor path still re-invokes the external alt-loc splitter before
its skip check, and the docking stage has no existence check at all: it
invokes vina (overwriting pose and log) regardless of what is on disk. -/
theorem skip_logic_incomplete :
    (∀ it : PrepareInputs.PrepItem, it.srcExists = true → it.outExists = true →
       PrepareInputs.prepare_ligand false it = ([Event.log "[SKIP] Ligand exists"], true)) ∧
    (∀ it : PrepareInputs.RecItem, it.srcExists = true → it.outExists = true →
       PrepareInputs.prepare_receptor false it =
         ((Event.invoke "mgltools-python" "prepare_pdb_split_alt_confs.py" ::
            (if it.splitProduced then [Event.log "[INFO] Using split alt-loc file"] else [])) ++
          [Event.log "[SKIP] Receptor exists"], true)) ∧
    (∀ (env : Docking.DockMainEnv) (r l : String), env.vinaRunnable = true →
       Event.invoke "vina" (Docking.dockingOutName r l) ∈
         (Docking.run_docking env r l).1) := by
  refine ⟨?_, ?_, ?_⟩
  · intro it hsrc hout
    simp [PrepareInputs.prepare_ligand, hsrc, hout]
  · intro it hsrc hout
    simp [PrepareInputs.prepare_receptor, hsrc, hout]
  · intro env r l hrun
    rw [Docking.run_docking]
    simp only [hrun]
    by_cases he : env.vinaExit r l = 0
    · simp [he, Docking.MANUAL_BOX]
    · simp [he, Docking.MANUAL_BOX]

/-- A docking environment in which every pose artifact already exists on
disk. -/
def dockedEnv : Docking.DockMainEnv :=
  ⟨true, true, true, ["R"], ["L"], true, fun _ _ => 0,
   fun _ => [], fun _ _ => [], fun _ _ => true⟩

/-- C3 counterexample: the docking stage's pose artifact for `(R, L)`
already exists, yet `run_docking` still invokes vina and rewrites both
artifacts, logging no skip line — so "no stage re-invokes its external
tool for an artifact whose output file already exists" is false. -/
theorem docking_reinvokes_despite_existing_artifact :
    dockedEnv.outExists "R" "L" = true ∧
    (Docking.run_docking dockedEnv "R" "L").1 =
      [Event.log "[WARN] No receptor coords parsed; using DEFAULT box.",
       Event.invoke "vina" "R__L_out.pdbqt", Event.write "R__L.log",
       Event.log "[OK] Docking complete"] := by
  decide

/-- A ligand item and a receptor item whose artifacts both exist. -/
def skipLigItem : PrepareInputs.PrepItem := ⟨"LIG2", true, true, true, 0⟩

/-- Receptor item with an existing artifact (no split file produced). -/
def skipRecItem : PrepareInputs.RecItem := ⟨"REC2", true, true, false, true, 0⟩

/-- Witness for C3 (amended): on concrete items with existing artifacts the
ligand path skips entirely, the receptor path re-invokes only the splitter
then skips, and on `dockedEnv` (artifact present) vina is re-invoked. -/
theorem skip_logic_incomplete_witness :
    PrepareInputs.prepare_ligand false skipLigItem =
      ([Event.log "[SKIP] Ligand exists"], true) ∧
    PrepareInputs.prepare_receptor false skipRecItem =
      ((Event.invoke "mgltools-python" "prepare_pdb_split_alt_confs.py" ::
         (if skipRecItem.splitProduced then [Event.log "[INFO] Using split alt-loc file"] else [])) ++
       [Event.log "[SKIP] Receptor exists"], true) ∧
    Event.invoke "vina" (Docking.dockingOutName "R" "L") ∈
      (Docking.run_docking dockedEnv "R" "L").1 :=
  ⟨skip_logic_incomplete.1 skipLigItem rfl rfl,
   skip_logic_incomplete.2.1 skipRecItem rfl rfl,
   skip_logic_incomplete.2.2 dockedEnv "R" "L" rfl⟩

namespace ExtractResults

/-! ## `scripts/extract_results.py` — recovering `(protein, ligand)` from a
log file name

Python: `protein, ligand = log_file.replace(".log", "").split("__")`, with
`except ValueError: protein = ligand = log_file.replace(".log", "")`.
`str.replace` removes **every** occurrence of `".log"`, scanning left to
right without overlap; `str.split("__")` splits at every leftmost
non-overlapping occurrence of the double underscore.  Both are modelled
below on character lists with exactly that semantics. -/

/-- Does the double-underscore separator occur anywhere in the string? -/
def hasDD : List Char → Bool
  | c :: d :: rest => (c = '_' && d = '_') || hasDD (d :: rest)
  | _ => false

/-- Does `".log"` occur anywhere in the string? -/
def hasDotLog : List Char → Bool
  | a :: b :: c :: d :: rest =>
    (a = '.' && b = 'l' && c = 'o' && d = 'g') || hasDotLog (b :: c :: d :: rest)
  | _ => false

/-- Python's `s.split("__")`, accumulating the current part in reverse:
split at each leftmost non-overlapping `"__"`. -/
def splitAux : List Char → List Char → List (List Char)
  | acc, [] => [acc.reverse]
  | acc, [c] => [(c :: acc).reverse]
  | acc, c :: d :: rest =>
    if c = '_' ∧ d = '_' then acc.reverse :: splitAux [] rest
    else splitAux (c :: acc) (d :: rest)

/-- Python's `s.replace(".log", "")`: drop each leftmost non-overlapping
occurrence of `".log"` and continue after it. -/
def remDotLog : List Char → List Char
  | a :: b :: c :: d :: rest =>
    if a = '.' ∧ b = 'l' ∧ c = 'o' ∧ d = 'g' then remDotLog rest
    else a :: remDotLog (b :: c :: d :: rest)
  | l => l

/-- `log_file.replace(".log", "").split("__")` unpacked into exactly two
names; on a `ValueError` (not exactly two parts) both components fall back
to the whole stripped name. -/
def parsePair (logFile : List Char) : List Char × List Char :=
  match splitAux [] (remDotLog logFile) with
  | [p, q] => (p, q)
  | _ => (remDotLog logFile, remDotLog logFile)

theorem hasDD_cons_false (c : Char) (t : List Char) (h : hasDD (c :: t) = false) :
    hasDD t = false := by
  rcases t with _ | ⟨d, rest⟩
  · rfl
  · simp only [hasDD, Bool.or_eq_false_iff] at h
    exact h.2

theorem hasDotLog_cons_false (a : Char) (t : List Char)
    (h : hasDotLog (a :: t) = false) : hasDotLog t = false := by
  rcases t with _ | ⟨b, t1⟩
  · rfl
  rcases t1 with _ | ⟨c, t2⟩
  · rfl
  rcases t2 with _ | ⟨d, t3⟩
  · rfl
  simp only [hasDotLog, Bool.or_eq_false_iff] at h
  exact h.2

theorem splitAux_no_sep : ∀ l : List Char, hasDD l = false →
    ∀ acc, splitAux acc l = [acc.reverse ++ l] := by
  intro l
  induction l with
  | nil =>
    intro _ acc
    simp [splitAux]
  | cons c rest ih =>
    intro h acc
    rcases rest with _ | ⟨d, rest1⟩
    · simp [splitAux]
    · have hnot : ¬ (c = '_' ∧ d = '_') := by
        intro hc
        simp [hasDD, hc.1, hc.2] at h
      rw [splitAux, if_neg hnot, ih (hasDD_cons_false _ _ h) (c :: acc)]
      simp

theorem splitAux_sep (l : List Char) (hl : hasDD l = false) :
    ∀ r : List Char, hasDD (r ++ ['_']) = false →
      ∀ acc, splitAux acc (r ++ '_' :: '_' :: l) = [acc.reverse ++ r, l] := by
  intro r
  induction r with
  | nil =>
    intro _ acc
    rw [List.nil_append, splitAux, if_pos ⟨rfl, rfl⟩,
      splitAux_no_sep l hl []]
    simp
  | cons c r1 ih =>
    intro h acc
    have h1 : hasDD (r1 ++ ['_']) = false := by
      rw [List.cons_append] at h
      exact hasDD_cons_false _ _ h
    have hstep : splitAux acc ((c :: r1) ++ '_' :: '_' :: l) =
        splitAux (c :: acc) (r1 ++ '_' :: '_' :: l) := by
      rcases r1 with _ | ⟨d, r2⟩
      · have hc : ¬ (c = '_' ∧ ('_' : Char) = '_') := by
          intro hcc
          simp [hasDD, hcc.1] at h
        rw [List.cons_append, List.nil_append, splitAux, if_neg hc]
      · have hc : ¬ (c = '_' ∧ d = '_') := by
          intro hcc
          simp [hasDD, hcc.1, hcc.2] at h
        rw [List.cons_append, List.cons_append, splitAux, if_neg hc]
    rw [hstep, ih h1 (c :: acc)]
    simp

theorem remDotLog_append : ∀ stem : List Char, hasDotLog stem = false →
    remDotLog (stem ++ '.' :: 'l' :: 'o' :: 'g' :: []) = stem := by
  intro stem
  induction stem with
  | nil =>
    intro _
    simp [remDotLog]
  | cons a s ih =>
    intro h
    have hs : hasDotLog s = false := hasDotLog_cons_false _ _ h
    rcases s with _ | ⟨b, s1⟩
    · simp [remDotLog]
    rcases s1 with _ | ⟨c, s2⟩
    · simp [remDotLog]
    rcases s2 with _ | ⟨d, s3⟩
    · simp [remDotLog]
    have hcond : ¬ (a = '.' ∧ b = 'l' ∧ c = 'o' ∧ d = 'g') := by
      intro hc
      simp [hasDotLog, hc.1, hc.2.1, hc.2.2.1, hc.2.2.2] at h
    have hstep : remDotLog ((a :: b :: c :: d :: s3) ++ '.' :: 'l' :: 'o' :: 'g' :: []) =
        a :: remDotLog ((b :: c :: d :: s3) ++ '.' :: 'l' :: 'o' :: 'g' :: []) := by
      show remDotLog (a :: b :: c :: d :: (s3 ++ '.' :: 'l' :: 'o' :: 'g' :: [])) = _
      rw [remDotLog, if_neg hcond]
      rfl
    rw [hstep, ih hs]

end ExtractResults

/-- C8 (amended): the docking stage names its pose artifact
`R__L_out.pdbqt` and its log `R__L.log`, and the extraction stage recovers
exactly `(R, L)` from such a log name by the `replace(".log","")` /
`split("__")` round trip — *provided* neither name contains a double
underscore, the receptor name does not end in an underscore, and the
assembled stem contains no `".log"` substring. -/
theorem naming_roundtrip :
    (∀ r l : String,
       ExtractResults.hasDD (r.data ++ ['_']) = false →
       ExtractResults.hasDD l.data = false →
       ExtractResults.hasDotLog (r.data ++ '_' :: '_' :: l.data) = false →
       ExtractResults.parsePair (Docking.dockingLogName r l).data = (r.data, l.data)) ∧
    (∀ (env : Docking.DockMainEnv) (r l : String), env.vinaRunnable = true →
       Event.invoke "vina" (Docking.dockingOutName r l) ∈ (Docking.run_docking env r l).1 ∧
       Event.write (Docking.dockingLogName r l) ∈ (Docking.run_docking env r l).1) := by
  constructor
  · intro r l h1 h2 h3
    have hd2 : ("__" : String).data = ['_', '_'] := by decide
    have hd4 : (".log" : String).data = ['.', 'l', 'o', 'g'] := by decide
    have hdata : (Docking.dockingLogName r l).data =
        (r.data ++ '_' :: '_' :: l.data) ++ '.' :: 'l' :: 'o' :: 'g' :: [] := by
      simp [Docking.dockingLogName, String.data_append, hd2, hd4]
    rw [ExtractResults.parsePair, hdata, ExtractResults.remDotLog_append _ h3,
      ExtractResults.splitAux_sep l.data h2 r.data h1 []]
    simp
  · intro env r l hrun
    rw [Docking.run_docking]
    simp only [hrun]
    by_cases he : env.vinaExit r l = 0
    · constructor
      · simp [he, Docking.MANUAL_BOX]
      · simp [he, Docking.MANUAL_BOX]
    · constructor
      · simp [he, Docking.MANUAL_BOX]
      · simp [he, Docking.MANUAL_BOX]

/-- C8 counterexample: for receptor name `"A_"` and ligand name `"B"` the
written log is `A___B.log`, and the extraction stage's split on `"__"`
recovers `("A", "_B")`, not `("A_", "B")`. -/
theorem double_underscore_breaks_pair_recovery :
    ExtractResults.parsePair (Docking.dockingLogName "A_" "B").data =
      ("A".data, "_B".data) ∧
    ExtractResults.parsePair (Docking.dockingLogName "A_" "B").data ≠
      ("A_".data, "B".data) := by
  decide

/-- Witness for C8 (amended): for `"5CRB"` and `"ATENOLOL"` the hypotheses
hold, the round trip recovers the names, and the docking stage invokes
vina on `5CRB__ATENOLOL_out.pdbqt` and writes `5CRB__ATENOLOL.log`. -/
theorem naming_roundtrip_witness :
    ExtractResults.hasDD ("5CRB".data ++ ['_']) = false ∧
    ExtractResults.hasDD "ATENOLOL".data = false ∧
    ExtractResults.hasDotLog ("5CRB".data ++ '_' :: '_' :: "ATENOLOL".data) = false ∧
    ExtractResults.parsePair (Docking.dockingLogName "5CRB" "ATENOLOL").data =
      ("5CRB".data, "ATENOLOL".data) ∧
    Event.invoke "vina" (Docking.dockingOutName "5CRB" "ATENOLOL") ∈
      (Docking.run_docking pairFailEnv "5CRB" "ATENOLOL").1 ∧
    Event.write (Docking.dockingLogName "5CRB" "ATENOLOL") ∈
      (Docking.run_docking pairFailEnv "5CRB" "ATENOLOL").1 :=
  ⟨by decide, by decide, by decide,
   naming_roundtrip.1 "5CRB" "ATENOLOL" (by decide) (by decide) (by decide),
   (naming_roundtrip.2 pairFailEnv "5CRB" "ATENOLOL" rfl).1,
   (naming_roundtrip.2 pairFailEnv "5CRB" "ATENOLOL" rfl).2⟩

namespace PrepareInputs

/-! ## `scripts/prepare_inputs.py` — `_list_files` and `_unique_ligand_paths`

`_unique_ligand_paths` walks `INPUT_LIGAND_DIRS = [data/ligands_pdb,
data/ligands]` in order, keeps the first path seen for each stem
(`os.path.splitext(f)[0]`), and returns `[seen[k] for k in sorted(seen)]`.
Stems are modelled as character lists; Python's `sorted` on distinct string
keys is the unique ≤-sorted arrangement, modelled with `insertionSort`
under the code-point lexicographic order (Mathlib's order on `List Char`).
`os.path.splitext` takes everything before the last dot — faithful here for
the names `_list_files` lets through, which never start with a dot. -/

/-- Which input directory a ligand path came from: `data/ligands_pdb`
(first, priority) or `data/ligands`. -/
inductive LigDir where
  | pdbDir
  | ligDir
  deriving DecidableEq

/-- `os.path.splitext(f)[0]` for names not starting with a dot: everything
before the last dot, or the whole name if there is none. -/
def stemChars (f : List Char) : List Char :=
  match f.reverse.dropWhile (fun c => c != '.') with
  | [] => f
  | _ :: rest => rest.reverse

/-- The (lower-cased) extension tuple passed for ligands. -/
def LIGAND_EXTS : List String := [".pdb", ".mol2", ".sdf"]

/-- `_list_files(dirname, exts)`: keep non-empty, non-hidden names whose
lower-cased form ends with one of the (lower-cased) extensions.  The
directory listing itself is the argument. -/
def list_files (files : List String) (exts : List String) : List String :=
  files.filter fun f =>
    (f != "") && (f.data.head? != some '.') &&
      exts.any fun e => e.data.isSuffixOf (f.data.map Char.toLower)

/-- Lookup in the `seen` dictionary (stem → first path), modelling Python
dict access. -/
def alistFind (k : List Char) : List (List Char × (LigDir × String)) → Option (LigDir × String)
  | [] => none
  | (k2, v) :: rest => if k2 = k then some v else alistFind k rest

/-- `if stem not in seen: seen[stem] = path`. -/
def insertItem (seen : List (List Char × (LigDir × String))) (it : LigDir × String) :
    List (List Char × (LigDir × String)) :=
  if (alistFind (stemChars it.2.data) seen).isSome then seen
  else seen ++ [(stemChars it.2.data, it)]

/-- The loop over all directory entries building `seen`. -/
def buildSeen (seen : List (List Char × (LigDir × String))) :
    List (LigDir × String) → List (List Char × (LigDir × String))
  | [] => seen
  | it :: rest => buildSeen (insertItem seen it) rest

/-- All candidate ligand files of both directories, in visit order,
tagged with their directory. -/
def taggedItems (d1 d2 : List String) : List (LigDir × String) :=
  (list_files d1 LIGAND_EXTS).map (fun f => (LigDir.pdbDir, f)) ++
    (list_files d2 LIGAND_EXTS).map (fun f => (LigDir.ligDir, f))

/-- `_unique_ligand_paths()`: build `seen` over both directories, then
return the values for the sorted stems. -/
def unique_ligand_paths (d1 d2 : List String) : List (LigDir × String) :=
  let seen := buildSeen [] (taggedItems d1 d2)
  (List.insertionSort (· ≤ ·) (seen.map Prod.fst)).filterMap fun k => alistFind k seen

/-- First directory entry with the given stem, in visit order. -/
def firstWithStem (k : List Char) : List (LigDir × String) → Option (LigDir × String)
  | [] => none
  | it :: rest => if stemChars it.2.data = k then some it else firstWithStem k rest

end PrepareInputs

namespace PrepareInputs

theorem alistFind_eq_none_iff (k : List Char) :
    ∀ seen, alistFind k seen = none ↔ k ∉ seen.map Prod.fst := by
  intro seen
  induction seen with
  | nil => exact ⟨fun _ => by simp, fun _ => rfl⟩
  | cons p rest ih =>
    rcases p with ⟨k2, v⟩
    by_cases h : k2 = k
    · rw [alistFind, if_pos h]
      constructor
      · intro hcontra
        exact absurd hcontra (Option.some_ne_none v)
      · intro hnot
        exact absurd (List.mem_map.mpr ⟨(k2, v), List.mem_cons_self _ _, h⟩) hnot
    · rw [alistFind, if_neg h]
      simp only [List.map_cons, List.mem_cons]
      rw [ih]
      constructor
      · intro hnot hmem
        rcases hmem with hmem | hmem
        · exact h hmem.symm
        · exact hnot hmem
      · intro hnot hmem
        exact hnot (Or.inr hmem)

theorem optOrNone (x : Option (LigDir × String)) : x.or none = x := by
  cases x <;> rfl

theorem optOrAssoc (a b c : Option (LigDir × String)) :
    (a.or b).or c = a.or (b.or c) := by
  cases a <;> rfl

theorem alistFind_concat (k k2 : List Char) (v : LigDir × String) :
    ∀ a, alistFind k (a ++ [(k2, v)]) =
      (alistFind k a).or (if k2 = k then some v else none) := by
  intro a
  induction a with
  | nil => rfl
  | cons p rest ih =>
    rcases p with ⟨k3, w⟩
    rw [List.cons_append, alistFind, alistFind]
    by_cases h : k3 = k
    · rw [if_pos h, if_pos h]
      rfl
    · rw [if_neg h, if_neg h, ih]

theorem alistFind_mem (k : List Char) (v : LigDir × String) :
    ∀ l, alistFind k l = some v → (k, v) ∈ l := by
  intro l
  induction l with
  | nil => intro h; exact absurd h (by simp [alistFind])
  | cons p rest ih =>
    rcases p with ⟨k2, w⟩
    intro h
    rw [alistFind] at h
    by_cases hk : k2 = k
    · rw [if_pos hk] at h
      subst hk
      rw [Option.some.injEq] at h
      subst h
      exact List.mem_cons_self _ _
    · rw [if_neg hk] at h
      exact List.mem_cons_of_mem _ (ih h)

theorem alistFind_buildSeen (k : List Char) :
    ∀ its seen, alistFind k (buildSeen seen its) =
      (alistFind k seen).or (firstWithStem k its) := by
  intro its
  induction its with
  | nil =>
    intro seen
    rw [buildSeen, firstWithStem, optOrNone]
  | cons it rest ih =>
    intro seen
    rw [buildSeen, ih, firstWithStem]
    rw [insertItem]
    by_cases hIn : (alistFind (stemChars it.2.data) seen).isSome
    · rw [if_pos hIn]
      by_cases hk : stemChars it.2.data = k
      · rw [if_pos hk]
        rw [hk] at hIn
        rcases Option.isSome_iff_exists.mp hIn with ⟨w, hw⟩
        rw [hw]
        rfl
      · rw [if_neg hk]
    · rw [if_neg hIn, alistFind_concat, optOrAssoc]
      congr 1
      by_cases hk : stemChars it.2.data = k
      · rw [if_pos hk, if_pos hk]
        rfl
      · rw [if_neg hk, if_neg hk]
        rfl

theorem buildSeen_keys_nodup :
    ∀ its seen, (seen.map Prod.fst).Nodup →
      ((buildSeen seen its).map Prod.fst).Nodup := by
  intro its
  induction its with
  | nil => intro seen h; exact h
  | cons it rest ih =>
    intro seen h
    rw [buildSeen]
    apply ih
    rw [insertItem]
    by_cases hIn : (alistFind (stemChars it.2.data) seen).isSome
    · rw [if_pos hIn]
      exact h
    · rw [if_neg hIn]
      have hnone : alistFind (stemChars it.2.data) seen = none :=
        Option.not_isSome_iff_eq_none.mp hIn
      have hnotmem := (alistFind_eq_none_iff _ seen).mp hnone
      simp only [List.map_append, List.map_cons, List.map_nil]
      rw [List.nodup_append]
      refine ⟨h, List.nodup_singleton _, ?_⟩
      intro a ha hb
      rw [List.mem_singleton] at hb
      subst hb
      exact hnotmem ha

theorem buildSeen_entries :
    ∀ its seen (e : List Char × (LigDir × String)), e ∈ buildSeen seen its →
      e ∈ seen ∨ (stemChars e.2.2.data = e.1 ∧ e.2 ∈ its) := by
  intro its
  induction its with
  | nil =>
    intro seen e he
    exact Or.inl he
  | cons it rest ih =>
    intro seen e he
    rw [buildSeen] at he
    rcases ih _ e he with hmem | ⟨hstem, hin⟩
    · rw [insertItem] at hmem
      by_cases hIn : (alistFind (stemChars it.2.data) seen).isSome
      · rw [if_pos hIn] at hmem
        exact Or.inl hmem
      · rw [if_neg hIn] at hmem
        rcases List.mem_append.mp hmem with hmem | hmem
        · exact Or.inl hmem
        · rcases List.mem_singleton.mp hmem with rfl
          exact Or.inr ⟨rfl, List.mem_cons_self _ _⟩
    · exact Or.inr ⟨hstem, List.mem_cons_of_mem _ hin⟩

theorem firstWithStem_mem (k : List Char) :
    ∀ l v, firstWithStem k l = some v → v ∈ l ∧ stemChars v.2.data = k := by
  intro l
  induction l with
  | nil => intro v h; exact absurd h (by simp [firstWithStem])
  | cons it rest ih =>
    intro v h
    rw [firstWithStem] at h
    by_cases hk : stemChars it.2.data = k
    · rw [if_pos hk, Option.some.injEq] at h
      subst h
      exact ⟨List.mem_cons_self _ _, hk⟩
    · rw [if_neg hk] at h
      rcases ih v h with ⟨h1, h2⟩
      exact ⟨List.mem_cons_of_mem _ h1, h2⟩

theorem firstWithStem_isSome_iff (k : List Char) :
    ∀ l, (firstWithStem k l).isSome ↔ ∃ it ∈ l, stemChars it.2.data = k := by
  intro l
  induction l with
  | nil => simp [firstWithStem]
  | cons it rest ih =>
    rw [firstWithStem]
    by_cases hk : stemChars it.2.data = k
    · rw [if_pos hk]
      simp only [Option.isSome_some, true_iff]
      exact ⟨it, List.mem_cons_self _ _, hk⟩
    · rw [if_neg hk, ih]
      constructor
      · rintro ⟨w, hw, hs⟩
        exact ⟨w, List.mem_cons_of_mem _ hw, hs⟩
      · rintro ⟨w, hw, hs⟩
        rcases List.mem_cons.mp hw with rfl | hw
        · exact absurd hs hk
        · exact ⟨w, hw, hs⟩

theorem firstWithStem_append (k : List Char) :
    ∀ a b, firstWithStem k (a ++ b) =
      (firstWithStem k a).or (firstWithStem k b) := by
  intro a b
  induction a with
  | nil => rw [List.nil_append, firstWithStem, Option.none_or]
  | cons it rest ih =>
    rw [List.cons_append, firstWithStem, firstWithStem]
    by_cases hk : stemChars it.2.data = k
    · rw [if_pos hk, if_pos hk]
      rfl
    · rw [if_neg hk, if_neg hk, ih]

theorem filterMap_find_stems (f : List Char → Option (LigDir × String)) :
    ∀ ks : List (List Char),
      (∀ k ∈ ks, ∃ v, f k = some v ∧ stemChars v.2.data = k) →
      ((ks.filterMap f).map fun p => stemChars p.2.data) = ks := by
  intro ks
  induction ks with
  | nil => intro _; rfl
  | cons k rest ih =>
    intro h
    rcases h k (List.mem_cons_self _ _) with ⟨v, hv, hs⟩
    rw [List.filterMap_cons, hv, List.map_cons, hs,
      ih fun k2 hk2 => h k2 (List.mem_cons_of_mem _ hk2)]

end PrepareInputs

open PrepareInputs in
/-- C10: the ligand-enumeration helper returns exactly one path per
filename stem across the two ligand input directories — a stem present in
`data/ligands_pdb` wins over `data/ligands` — and the returned list is
sorted by stem in strictly ascending (code-point lexicographic) order. -/
theorem ligand_enumeration_unique_sorted (d1 d2 : List String) :
    ((unique_ligand_paths d1 d2).map fun p => stemChars p.2.data).Sorted (· < ·) ∧
    (∀ s : List Char,
       (∃ p ∈ unique_ligand_paths d1 d2, stemChars p.2.data = s) ↔
       ((∃ f ∈ list_files d1 LIGAND_EXTS, stemChars f.data = s) ∨
        (∃ f ∈ list_files d2 LIGAND_EXTS, stemChars f.data = s))) ∧
    (∀ p ∈ unique_ligand_paths d1 d2,
       (∃ f ∈ list_files d1 LIGAND_EXTS,
          stemChars f.data = stemChars p.2.data) →
       p.1 = LigDir.pdbDir ∧ p.2 ∈ list_files d1 LIGAND_EXTS) := by
  have hfind : ∀ k, alistFind k (buildSeen [] (taggedItems d1 d2)) =
      firstWithStem k (taggedItems d1 d2) := by
    intro k
    rw [alistFind_buildSeen]
    rfl
  have hstem : ∀ k v, alistFind k (buildSeen [] (taggedItems d1 d2)) = some v →
      stemChars v.2.data = k ∧ v ∈ taggedItems d1 d2 := by
    intro k v hv
    have hmem := alistFind_mem k v _ hv
    rcases buildSeen_entries (taggedItems d1 d2) [] (k, v) hmem with h0 | h1
    · exact absurd h0 (List.not_mem_nil _)
    · exact ⟨h1.1, h1.2⟩
  have hkeys_nodup : ((buildSeen [] (taggedItems d1 d2)).map Prod.fst).Nodup :=
    buildSeen_keys_nodup _ [] (by simp)
  have hsome : ∀ k ∈ List.insertionSort (· ≤ ·)
      ((buildSeen [] (taggedItems d1 d2)).map Prod.fst),
      ∃ v, alistFind k (buildSeen [] (taggedItems d1 d2)) = some v ∧
        stemChars v.2.data = k := by
    intro k hk
    have hk2 : k ∈ (buildSeen [] (taggedItems d1 d2)).map Prod.fst :=
      (List.perm_insertionSort _ _).mem_iff.mp hk
    rcases Option.eq_none_or_eq_some
        (alistFind k (buildSeen [] (taggedItems d1 d2))) with hnone | ⟨v, hv⟩
    · exact absurd hk2 ((alistFind_eq_none_iff k _).mp hnone)
    · exact ⟨v, hv, (hstem k v hv).1⟩
  have hmapstems : ((unique_ligand_paths d1 d2).map fun p => stemChars p.2.data) =
      List.insertionSort (· ≤ ·) ((buildSeen [] (taggedItems d1 d2)).map Prod.fst) := by
    simp only [unique_ligand_paths]
    exact filterMap_find_stems _ _ hsome
  have hout_mem : ∀ p, p ∈ unique_ligand_paths d1 d2 ↔
      ∃ k ∈ List.insertionSort (· ≤ ·)
        ((buildSeen [] (taggedItems d1 d2)).map Prod.fst),
        alistFind k (buildSeen [] (taggedItems d1 d2)) = some p := by
    intro p
    simp only [unique_ligand_paths]
    exact List.mem_filterMap
  refine ⟨?_, ?_, ?_⟩
  · rw [hmapstems]
    have hle : (List.insertionSort (· ≤ ·)
        ((buildSeen [] (taggedItems d1 d2)).map Prod.fst)).Sorted (· ≤ ·) :=
      List.sorted_insertionSort _ _
    have hnd : (List.insertionSort (· ≤ ·)
        ((buildSeen [] (taggedItems d1 d2)).map Prod.fst)).Nodup :=
      (List.perm_insertionSort _ _).symm.nodup hkeys_nodup
    exact (hle.and hnd).imp fun hab => lt_of_le_of_ne hab.1 hab.2
  · intro s
    constructor
    · rintro ⟨p, hp, hps⟩
      rcases (hout_mem p).mp hp with ⟨k, _, hfindk⟩
      have hv := hstem k p hfindk
      rcases List.mem_append.mp hv.2 with hd | hd
      · rcases List.mem_map.mp hd with ⟨f, hf, hpf⟩
        left
        refine ⟨f, hf, ?_⟩
        rw [← hpf] at hps
        exact hps
      · rcases List.mem_map.mp hd with ⟨f, hf, hpf⟩
        right
        refine ⟨f, hf, ?_⟩
        rw [← hpf] at hps
        exact hps
    · intro hex
      have hsomef : (firstWithStem s (taggedItems d1 d2)).isSome := by
        apply (firstWithStem_isSome_iff s _).mpr
        rcases hex with ⟨f, hf, hfs⟩ | ⟨f, hf, hfs⟩
        · exact ⟨(LigDir.pdbDir, f),
            List.mem_append_left _ (List.mem_map.mpr ⟨f, hf, rfl⟩), hfs⟩
        · exact ⟨(LigDir.ligDir, f),
            List.mem_append_right _ (List.mem_map.mpr ⟨f, hf, rfl⟩), hfs⟩
      have hfsome : (alistFind s (buildSeen [] (taggedItems d1 d2))).isSome := by
        rw [hfind s]
        exact hsomef
      rcases Option.isSome_iff_exists.mp hfsome with ⟨v, hv⟩
      have hs_keys : s ∈ (buildSeen [] (taggedItems d1 d2)).map Prod.fst := by
        by_contra hn
        rw [← alistFind_eq_none_iff s _] at hn
        rw [hn] at hv
        exact absurd hv (Option.noConfusion)
      refine ⟨v, (hout_mem v).mpr
        ⟨s, (List.perm_insertionSort _ _).mem_iff.mpr hs_keys, hv⟩,
        (hstem s v hv).1⟩
  · rintro p hp ⟨f, hf, hfs⟩
    rcases (hout_mem p).mp hp with ⟨k, _, hfindk⟩
    have hpk := (hstem k p hfindk).1
    have hkey : firstWithStem k (taggedItems d1 d2) = some p := by
      rw [← hfind k]
      exact hfindk
    have hd1some : (firstWithStem k
        ((list_files d1 LIGAND_EXTS).map fun g => (LigDir.pdbDir, g))).isSome := by
      apply (firstWithStem_isSome_iff k _).mpr
      refine ⟨(LigDir.pdbDir, f), List.mem_map.mpr ⟨f, hf, rfl⟩, ?_⟩
      rw [hfs, hpk]
    rcases Option.isSome_iff_exists.mp hd1some with ⟨w, hw⟩
    have hkey2 : firstWithStem k (taggedItems d1 d2) = some w := by
      rw [taggedItems, firstWithStem_append, hw]
      rfl
    have hpw : p = w := Option.some.inj (hkey.symm.trans hkey2)
    subst hpw
    rcases firstWithStem_mem k _ p hw with ⟨hwmem, _⟩
    rcases List.mem_map.mp hwmem with ⟨g, hg, hgw⟩
    constructor
    · rw [← hgw]
    · rw [← hgw]
      exact hg

/-- A concrete `data/ligands_pdb` listing: two valid ligand files and one
extension-less entry. -/
def ligDirsA : List String := ["B.pdb", "A.sdf", "x"]

/-- A concrete `data/ligands` listing: a stem colliding with `ligDirsA`
(`A`), a fresh stem (`C`), and a hidden file. -/
def ligDirsB : List String := ["A.pdb", "C.mol2", ".hidden.pdb"]

open PrepareInputs in
/-- Witness for C10: on the concrete listings the enumeration is sorted by
stem, the colliding stem `A` resolves to the `ligands_pdb` file `A.sdf`,
and the theorem's priority clause applies to it. -/
theorem ligand_enumeration_unique_sorted_witness :
    ((unique_ligand_paths ligDirsA ligDirsB).map fun p =>
        stemChars p.2.data).Sorted (· < ·) ∧
    (LigDir.pdbDir, "A.sdf") ∈ unique_ligand_paths ligDirsA ligDirsB ∧
    ((LigDir.pdbDir, ("A.sdf" : String)).1 = LigDir.pdbDir ∧
      (LigDir.pdbDir, ("A.sdf" : String)).2 ∈ list_files ligDirsA LIGAND_EXTS) :=
  ⟨(ligand_enumeration_unique_sorted ligDirsA ligDirsB).1,
   by decide,
   (ligand_enumeration_unique_sorted ligDirsA ligDirsB).2.2
     (LigDir.pdbDir, "A.sdf") (by decide) (by decide)⟩
